import Mathlib

/-!
Verification of the record matcher in `match_ardex_data.py`.

The Python program reconciles a "primary" table of issued cash rewards with
a "secondary" table of partner payouts.  Its core is `match_data`: a greedy,
first-fit, order-dependent one-to-one assignment of primary event ids to
secondary rows, driven by four predicates (phone-suffix/name join, 7-day
release window, exact amount equality, CASHVIP flag agreement).

Embedding conventions:
* Python strings are `List Char`; `str.lower()` is `lowerStr`
  (`List.map Char.toLower`) and `str.endswith(suffix)` is `endsWithStr`.
* Calendar dates are proleptic-Gregorian ordinal day numbers (`Int`), as
  produced by `date.toordinal()`; `timedelta(days=7)` is `+ 7`.
* The primary `amount` is `Option ℚ`: `none` models the float NaN that
  `str.extract` produces when the reward label has no `£<digits>` pattern.
  In Python `NaN == x` is `False` for every `x`, so the `none` case of
  `amountPred` is `false`.
* The secondary `CASHVIP?` cell is `Option (List Char)`: `none` models a
  missing/NaN cell (`pd.isna` true); `some v` a present string value.
* A secondary row paired with its mutable `Event ID` cell is a
  `SecondaryRecord × Option (List Char)`; the cell starts as `None`.
-/

/-- One prepared row of the primary (our) dataframe, with the columns
`match_data` reads: `Event ID`, `name`, `last_10_digits`, `Reported At`,
`amount`, `CASHVIP`. -/
structure PrimaryRecord where
  event_id : List Char
  name : List Char
  last_10_digits : List Char
  reported_at : Int
  amount : Option ℚ
  cashvip : List Char
  deriving DecidableEq, Repr

/-- One row of the secondary (Ardex/BAL) dataframe, with the columns
`match_data` reads: `Recipient Phone Number`, `Recipient`,
`Order Release Date (mm/dd/yyyy)`, `Amount`, `CASHVIP?`. -/
structure SecondaryRecord where
  recipient_phone : List Char
  recipient : List Char
  release_date : Int
  amount : ℚ
  cashvip : Option (List Char)
  deriving DecidableEq, Repr

/-- Python `s.lower()`. -/
def lowerStr (s : List Char) : List Char :=
  s.map Char.toLower

/-- Python `s.endswith(suffix)`: the last `suffix.length` characters of `s`
equal `suffix` (false when `suffix` is longer than `s`). -/
def endsWithStr (s suffix : List Char) : Bool :=
  s.drop (s.length - suffix.length) == suffix

/-- Line 115: `str(secondary_row['Recipient Phone Number']).endswith(primary_row['last_10_digits'])
and primary_row['name'].lower() == secondary_row['Recipient'].lower()`. -/
def joinPred (p : PrimaryRecord) (s : SecondaryRecord) : Bool :=
  endsWithStr s.recipient_phone p.last_10_digits &&
    (lowerStr p.name == lowerStr s.recipient)

/-- Lines 118-119: `secondary_row['Order Release Date'] > primary_row['Reported At']
and secondary_row['Order Release Date'] <= primary_row['Reported At'] + timedelta(days=7)`. -/
def windowPred (p : PrimaryRecord) (s : SecondaryRecord) : Bool :=
  decide (p.reported_at < s.release_date) &&
    decide (s.release_date ≤ p.reported_at + 7)

/-- Line 120: `primary_row['amount'] == secondary_row['Amount']`.  A `none`
(NaN) primary amount compares unequal to everything, as in Python. -/
def amountPred (p : PrimaryRecord) (s : SecondaryRecord) : Bool :=
  match p.amount with
  | none => false
  | some a => a == s.amount

/-- Lines 121-122: `(primary_row['CASHVIP'] == 'YES' and secondary_row['CASHVIP?'] == 'YES')
or (primary_row['CASHVIP'] == '' and pd.isna(secondary_row['CASHVIP?']))`.
A NaN secondary cell (`none`) compares unequal to `'YES'` and satisfies
`pd.isna`. -/
def vipPred (p : PrimaryRecord) (s : SecondaryRecord) : Bool :=
  (p.cashvip == "YES".toList && s.cashvip == some "YES".toList) ||
    (p.cashvip == "".toList && s.cashvip == none)

/-- The full match condition of lines 115-122: all four predicates hold. -/
def matchPred (p : PrimaryRecord) (s : SecondaryRecord) : Bool :=
  joinPred p s && windowPred p s && amountPred p s && vipPred p s

/-- Line 77: `'YES' if 'CASHVIP' in x else 'NO'` — the only CASHVIP values
`prepare_data` ever writes into the primary dataframe. -/
def prepare_cashvip (reward_name : List Char) : List Char :=
  if List.IsInfix ("CASHVIP".toList) reward_name then "YES".toList else "NO".toList

/-- The inner loop of lines 113-130 for one primary row `p`: scan the
secondary rows in original order, skip the ones whose `Event ID` cell is
already set, write `p`'s event id into the first still-unassigned row
satisfying all predicates, and stop (`break`).  Returns the updated rows
and whether an assignment happened. -/
def assignFirst (p : PrimaryRecord) :
    List (SecondaryRecord × Option (List Char)) →
      List (SecondaryRecord × Option (List Char)) × Bool
  | [] => ([], false)
  | (s, a) :: rest =>
    if a.isNone && matchPred p s then
      ((s, some p.event_id) :: rest, true)
    else
      let r := assignFirst p rest
      ((s, a) :: r.1, r.2)

/-- The outer loop of lines 112-130: iterate the primary rows in original
order; a row that assigns is removed from the unmatched-primary pool, one
that does not stays in it.  Returns the final secondary rows and the
unmatched primary rows in original order. -/
def matchLoop :
    List PrimaryRecord → List (SecondaryRecord × Option (List Char)) →
      List (SecondaryRecord × Option (List Char)) × List PrimaryRecord
  | [], slots => (slots, [])
  | p :: ps, slots =>
    let r := assignFirst p slots
    let rest := matchLoop ps r.1
    (rest.1, if r.2 then rest.2 else p :: rest.2)

/-- The four collections `match_data` returns (lines 139-144).
`missing_rewards` drops the `Event ID` helper column (line 137), so it
holds bare secondary records. -/
structure MatchOutput where
  primary : List PrimaryRecord
  secondary : List (SecondaryRecord × Option (List Char))
  missing_events : List PrimaryRecord
  missing_rewards : List SecondaryRecord
  deriving DecidableEq, Repr

/-- Lines 104-144: initialize every `Event ID` cell to `None`, run the
greedy nested loop, and slice out the unmatched rows (`primary.loc` /
`secondary.loc` preserve original order). -/
def match_data (primary : List PrimaryRecord) (secondary : List SecondaryRecord) :
    MatchOutput :=
  let slots := secondary.map fun s => (s, (none : Option (List Char)))
  let r := matchLoop primary slots
  { primary := primary
    secondary := r.1
    missing_events := r.2
    missing_rewards := (r.1.filter fun sl => sl.2.isNone).map Prod.fst }

/-- Modelled from the spec: the VIP predicate as §4.1 states it, under the
Data Preparer's encodings (`true` is `'YES'`, `false` is `'NO'`, a secondary
unknown/absent flag is a missing cell): matches iff both sides are VIP, or
the primary is non-VIP and the secondary flag is absent. -/
def vipSpecPred (p : PrimaryRecord) (s : SecondaryRecord) : Bool :=
  (p.cashvip == "YES".toList && s.cashvip == some "YES".toList) ||
    (p.cashvip == "NO".toList && s.cashvip == none)

/-- The primary record of the spec's example scenario: eventId `E1`, name
`jane doe`, phoneSuffix `5551234567`, reportedDate 2024-01-01 (ordinal
738886), amount 50.0, isCashVip false — which `prepare_data` line 77
encodes as `CASHVIP = 'NO'`. -/
def pC1 : PrimaryRecord :=
  { event_id := "E1".toList
    name := "jane doe".toList
    last_10_digits := "5551234567".toList
    reported_at := 738886
    amount := some 50
    cashvip := "NO".toList }

/-- The secondary record of the spec's example scenario: recipientPhone
`+15551234567`, recipientName `Jane Doe`, releaseDate 2024-01-03 (ordinal
738888), amount 50.0, isCashVip absent. -/
def sC1 : SecondaryRecord :=
  { recipient_phone := "+15551234567".toList
    recipient := "Jane Doe".toList
    release_date := 738888
    amount := 50
    cashvip := none }

/-- A VIP primary record that matches `sW1` on every predicate; used to
exhibit concrete runs of the matcher. -/
def pW1 : PrimaryRecord :=
  { event_id := "E1".toList
    name := "a".toList
    last_10_digits := "1".toList
    reported_at := 0
    amount := some 1
    cashvip := "YES".toList }

/-- A second VIP primary record, identical to `pW1` except for its event id. -/
def pW2 : PrimaryRecord :=
  { pW1 with event_id := "E2".toList }

/-- A primary record whose amount extraction failed (NaN). -/
def pW3 : PrimaryRecord :=
  { pW1 with event_id := "E3".toList, amount := none }

/-- A non-VIP primary record, with the `'NO'` flag `prepare_data` writes. -/
def pW4 : PrimaryRecord :=
  { pW1 with event_id := "E4".toList, cashvip := "NO".toList }

/-- A secondary record matching `pW1` and `pW2` on every predicate. -/
def sW1 : SecondaryRecord :=
  { recipient_phone := "1".toList
    recipient := "A".toList
    release_date := 1
    amount := 1
    cashvip := some "YES".toList }

/-- C1: on the spec's example scenario the code does NOT assign `E1`: the
join, window and amount predicates all hold, but the VIP predicate fails
because the non-VIP branch of line 122 requires `CASHVIP == ''` while
`prepare_data` encodes a non-VIP primary as `'NO'`.  Both records therefore
land in the unmatched outputs, contradicting the claimed
`assignedEventId == "E1"` with empty unmatched collections. -/
theorem c1_example_scenario_fails_to_match :
    joinPred pC1 sC1 = true ∧ windowPred pC1 sC1 = true ∧
      amountPred pC1 sC1 = true ∧ vipPred pC1 sC1 = false ∧
      (match_data [pC1] [sC1]).secondary = [(sC1, none)] ∧
      (match_data [pC1] [sC1]).missing_events = [pC1] ∧
      (match_data [pC1] [sC1]).missing_rewards = [sC1] := by
  refine ⟨by decide, by decide, by decide, by decide, ?_, ?_, ?_⟩ <;> decide

/-- C2: the code's VIP check disagrees with the specified VIP predicate on
the configuration `p.isCashVip = false` (encoded `'NO'` by `prepare_data`,
which only ever produces `'YES'` or `'NO'`), `s.isCashVip` absent: the spec
predicate accepts it, the code rejects it, because line 122 compares the
primary flag against the empty string. -/
theorem c2_vip_predicate_diverges_from_spec :
    prepare_cashvip "£50 Amazon Voucher".toList = "NO".toList ∧
      pC1.cashvip = "NO".toList ∧ sC1.cashvip = none ∧
      vipSpecPred pC1 sC1 = true ∧ vipPred pC1 sC1 = false := by
  refine ⟨?_, by decide, by decide, by decide, by decide⟩
  decide

/-- C3: the join predicate of line 115 holds iff `recipientPhone` ends with
the primary's 10-digit phone suffix and the two names are equal after
lowercasing. -/
theorem c3_join_predicate_characterization
    (p : PrimaryRecord) (s : SecondaryRecord) :
    joinPred p s = true ↔
      (p.last_10_digits <:+ s.recipient_phone ∧
        lowerStr s.recipient = lowerStr p.name) := by
  simp only [joinPred, endsWithStr, Bool.and_eq_true, beq_iff_eq]
  constructor
  · rintro ⟨h1, h2⟩
    exact ⟨List.suffix_iff_eq_drop.mpr h1.symm, h2.symm⟩
  · rintro ⟨h1, h2⟩
    exact ⟨(List.suffix_iff_eq_drop.mp h1).symm, h2.symm⟩

/-- C4: the window predicate of lines 118-119 holds iff the release date is
strictly after the reported date and at most 7 days after it; in
particular a same-day release never matches, a release exactly 7 days
later always matches, and one 8 days later never does. -/
theorem c4_window_predicate_characterization
    (p : PrimaryRecord) (s : SecondaryRecord) :
    (windowPred p s = true ↔
      (p.reported_at < s.release_date ∧
        s.release_date ≤ p.reported_at + 7)) ∧
      windowPred p { s with release_date := p.reported_at } = false ∧
      windowPred p { s with release_date := p.reported_at + 7 } = true ∧
      windowPred p { s with release_date := p.reported_at + 8 } = false := by
  refine ⟨?_, ?_, ?_, ?_⟩ <;> simp [windowPred]

theorem assignFirst_fst_map (p : PrimaryRecord)
    (slots : List (SecondaryRecord × Option (List Char))) :
    ((assignFirst p slots).1).map Prod.fst = slots.map Prod.fst := by
  induction slots with
  | nil => rfl
  | cons hd tl ih =>
    obtain ⟨s, a⟩ := hd
    simp only [assignFirst]
    split
    · simp
    · simp [ih]

theorem assignFirst_eq_of_not_assigned (p : PrimaryRecord)
    (slots : List (SecondaryRecord × Option (List Char)))
    (h : (assignFirst p slots).2 = false) :
    (assignFirst p slots).1 = slots := by
  induction slots with
  | nil => rfl
  | cons hd tl ih =>
    obtain ⟨s, a⟩ := hd
    by_cases hc : (a.isNone && matchPred p s) = true
    · simp only [assignFirst, if_pos hc] at h
      exact Bool.noConfusion h
    · simp only [assignFirst, if_neg hc] at h ⊢
      simp [ih h]

theorem assignFirst_decomp (p : PrimaryRecord)
    (slots : List (SecondaryRecord × Option (List Char)))
    (h : (assignFirst p slots).2 = true) :
    ∃ l1 s0 l2, slots = l1 ++ (s0, (none : Option (List Char))) :: l2 ∧
      (assignFirst p slots).1 = l1 ++ (s0, some p.event_id) :: l2 ∧
      matchPred p s0 = true := by
  induction slots with
  | nil => simp [assignFirst] at h
  | cons hd tl ih =>
    obtain ⟨s, a⟩ := hd
    by_cases hc : (a.isNone && matchPred p s) = true
    · have ha : a = none := by
        cases a
        · rfl
        · simp at hc
      have hm : matchPred p s = true := (Bool.and_eq_true _ _).mp hc |>.2
      exact ⟨[], s, tl, by simp [ha], by simp [assignFirst, ha, hm], hm⟩
    · simp only [assignFirst, if_neg hc] at h ⊢
      obtain ⟨l1, s0, l2, h1, h2, h3⟩ := ih h
      exact ⟨(s, a) :: l1, s0, l2, by simp [h1], by simp [h2], h3⟩

theorem matchLoop_fst_map (ps : List PrimaryRecord)
    (slots : List (SecondaryRecord × Option (List Char))) :
    ((matchLoop ps slots).1).map Prod.fst = slots.map Prod.fst := by
  induction ps generalizing slots with
  | nil => rfl
  | cons p ps ih =>
    simp only [matchLoop]
    rw [ih, assignFirst_fst_map]

theorem matchLoop_missing_sublist (ps : List PrimaryRecord)
    (slots : List (SecondaryRecord × Option (List Char))) :
    ((matchLoop ps slots).2).Sublist ps := by
  induction ps generalizing slots with
  | nil => simp [matchLoop]
  | cons p ps ih =>
    simp only [matchLoop]
    by_cases hb : (assignFirst p slots).2 = true
    · rw [if_pos hb]
      exact (ih _).cons p
    · rw [if_neg hb]
      exact (ih _).cons₂ p

theorem matchLoop_assign_perm (ps : List PrimaryRecord)
    (slots : List (SecondaryRecord × Option (List Char))) :
    ((matchLoop ps slots).1.filterMap Prod.snd ++
        (matchLoop ps slots).2.map PrimaryRecord.event_id).Perm
      (slots.filterMap Prod.snd ++ ps.map PrimaryRecord.event_id) := by
  induction ps generalizing slots with
  | nil => simp [matchLoop]
  | cons p ps ih =>
    simp only [matchLoop, List.map_cons]
    by_cases hb : (assignFirst p slots).2 = true
    · rw [if_pos hb]
      obtain ⟨l1, s0, l2, h1, h2, _⟩ := assignFirst_decomp p slots hb
      refine (ih _).trans ?_
      rw [h2, h1]
      simp only [List.filterMap_append, List.filterMap_cons, List.append_assoc,
        List.cons_append]
      exact List.Perm.append_left _ List.perm_middle.symm
    · rw [if_neg hb]
      have heq := assignFirst_eq_of_not_assigned p slots (by
        cases hmm : (assignFirst p slots).2
        · rfl
        · exact absurd hmm hb)
      rw [heq, List.map_cons]
      exact List.perm_middle.trans (((ih slots)).cons p.event_id) |>.trans
        List.perm_middle.symm

theorem assignFirst_mem_vals (p : PrimaryRecord)
    (slots : List (SecondaryRecord × Option (List Char))) (e : List Char)
    (h : e ∈ slots.filterMap Prod.snd) :
    e ∈ (assignFirst p slots).1.filterMap Prod.snd := by
  by_cases hb : (assignFirst p slots).2 = true
  · obtain ⟨l1, s0, l2, h1, h2, _⟩ := assignFirst_decomp p slots hb
    rw [h2]
    rw [h1] at h
    simp only [List.filterMap_append, List.filterMap_cons, List.mem_append] at h ⊢
    simp only [List.mem_cons]
    tauto
  · rw [assignFirst_eq_of_not_assigned p slots (by
      cases hmm : (assignFirst p slots).2
      · rfl
      · exact absurd hmm hb)]
    exact h

theorem matchLoop_mem_vals (ps : List PrimaryRecord)
    (slots : List (SecondaryRecord × Option (List Char))) (e : List Char)
    (h : e ∈ slots.filterMap Prod.snd) :
    e ∈ (matchLoop ps slots).1.filterMap Prod.snd := by
  induction ps generalizing slots with
  | nil => exact h
  | cons p ps ih =>
    simp only [matchLoop]
    exact ih _ (assignFirst_mem_vals p slots e h)

theorem matchLoop_eid_mem_of_not_missing (ps : List PrimaryRecord)
    (slots : List (SecondaryRecord × Option (List Char))) (p : PrimaryRecord)
    (hp : p ∈ ps) (hm : p ∉ (matchLoop ps slots).2) :
    p.event_id ∈ (matchLoop ps slots).1.filterMap Prod.snd := by
  induction ps generalizing slots with
  | nil => cases hp
  | cons q ps ih =>
    simp only [matchLoop] at hm ⊢
    by_cases hb : (assignFirst q slots).2 = true
    · rw [if_pos hb] at hm
      cases List.mem_cons.mp hp with
      | inl heq =>
        subst heq
        obtain ⟨l1, s0, l2, h1, h2, _⟩ := assignFirst_decomp p slots hb
        apply matchLoop_mem_vals
        rw [h2]
        simp [List.filterMap_append, List.filterMap_cons]
      | inr hp2 => exact ih _ hp2 hm
    · rw [if_neg hb] at hm
      have hq : p ≠ q := by
        intro heq
        exact hm (heq ▸ List.mem_cons_self q ((matchLoop ps (assignFirst q slots).1).2))
      cases List.mem_cons.mp hp with
      | inl heq => exact absurd heq hq
      | inr hp2 =>
        exact ih _ hp2 fun hmem => hm (List.mem_cons_of_mem q hmem)

theorem assignFirst_false_of_never (p : PrimaryRecord)
    (slots : List (SecondaryRecord × Option (List Char)))
    (h : ∀ s : SecondaryRecord, matchPred p s = false) :
    (assignFirst p slots).2 = false := by
  induction slots with
  | nil => rfl
  | cons hd tl ih =>
    obtain ⟨s, a⟩ := hd
    have hc : (a.isNone && matchPred p s) = false := by simp [h s]
    simp only [assignFirst, hc]
    simpa using ih

theorem matchLoop_missing_of_never (ps : List PrimaryRecord)
    (slots : List (SecondaryRecord × Option (List Char))) (p : PrimaryRecord)
    (hp : p ∈ ps) (h : ∀ s : SecondaryRecord, matchPred p s = false) :
    p ∈ (matchLoop ps slots).2 := by
  induction ps generalizing slots with
  | nil => cases hp
  | cons q ps ih =>
    simp only [matchLoop]
    cases List.mem_cons.mp hp with
    | inl heq =>
      subst heq
      have hb := assignFirst_false_of_never p slots h
      rw [if_neg (by simp [hb])]
      exact List.mem_cons_self p _
    | inr hp2 =>
      by_cases hb : (assignFirst q slots).2 = true
      · rw [if_pos hb]
        exact ih _ hp2
      · rw [if_neg hb]
        exact List.mem_cons_of_mem q (ih _ hp2)

theorem init_slots_vals (secondary : List SecondaryRecord) :
    ((secondary.map fun s => (s, (none : Option (List Char)))).filterMap
      Prod.snd) = [] := by
  induction secondary with
  | nil => rfl
  | cons s tl ih => simp [List.filterMap_cons, ih]

theorem slots_length_split
    (L : List (SecondaryRecord × Option (List Char))) :
    L.length = (L.filterMap Prod.snd).length +
      ((L.filter fun sl => sl.2.isNone).map Prod.fst).length := by
  induction L with
  | nil => rfl
  | cons hd tl ih =>
    obtain ⟨s, a⟩ := hd
    cases a <;> simp [List.filterMap_cons, List.filter_cons, ih] <;> omega

/-- C5: when the primary event ids are pairwise distinct, matching never
assigns one event id to two different secondary rows: the list of non-null
`Event ID` cells in the output has no duplicates. -/
theorem c5_assigned_event_ids_nodup
    (primary : List PrimaryRecord) (secondary : List SecondaryRecord)
    (h : (primary.map PrimaryRecord.event_id).Nodup) :
    ((match_data primary secondary).secondary.filterMap Prod.snd).Nodup := by
  simp only [match_data]
  have hperm := matchLoop_assign_perm primary
    (secondary.map fun s => (s, (none : Option (List Char))))
  rw [init_slots_vals, List.nil_append] at hperm
  exact (hperm.symm.nodup h).of_append_left

/-- Witness for C5: a concrete run with two primaries and one secondary in
which an assignment actually happens. -/
theorem c5_assigned_event_ids_nodup_w :
    ([pW1, pW2].map PrimaryRecord.event_id).Nodup ∧
      ((match_data [pW1, pW2] [sW1]).secondary.filterMap Prod.snd).Nodup :=
  ⟨by decide, c5_assigned_event_ids_nodup [pW1, pW2] [sW1] (by decide)⟩

/-- C6: under the data-model invariant that primary event ids are unique,
the outputs partition both collections: every primary row either has its
event id assigned to some secondary row or lies in `missing_events`, and
never both; every secondary row either carries a non-null assignment or
its record lies in `missing_rewards`; and the counts add up on both
sides. -/
theorem c6_partition_completeness
    (primary : List PrimaryRecord) (secondary : List SecondaryRecord)
    (h : (primary.map PrimaryRecord.event_id).Nodup) :
    (∀ p ∈ primary,
        p.event_id ∈
            (match_data primary secondary).secondary.filterMap Prod.snd ∨
          p ∈ (match_data primary secondary).missing_events) ∧
      (∀ p ∈ primary, p ∈ (match_data primary secondary).missing_events →
          p.event_id ∉
            (match_data primary secondary).secondary.filterMap Prod.snd) ∧
      (∀ sl ∈ (match_data primary secondary).secondary,
          sl.2 ≠ none ∨
            sl.1 ∈ (match_data primary secondary).missing_rewards) ∧
      ((match_data primary secondary).secondary.filterMap Prod.snd).length +
          (match_data primary secondary).missing_events.length =
        primary.length ∧
      (match_data primary secondary).secondary.length =
        ((match_data primary secondary).secondary.filterMap Prod.snd).length +
          (match_data primary secondary).missing_rewards.length := by
  simp only [match_data]
  have hperm := matchLoop_assign_perm primary
    (secondary.map fun s => (s, (none : Option (List Char))))
  rw [init_slots_vals, List.nil_append] at hperm
  have hnd := hperm.symm.nodup h
  have hdisj := List.disjoint_of_nodup_append hnd
  refine ⟨?_, ?_, ?_, ?_, ?_⟩
  · intro p hp
    by_cases hm :
      p ∈ (matchLoop primary (secondary.map fun s => (s, none))).2
    · exact Or.inr hm
    · exact Or.inl (matchLoop_eid_mem_of_not_missing _ _ p hp hm)
  · intro p _ hm hmem
    exact hdisj hmem (List.mem_map_of_mem PrimaryRecord.event_id hm)
  · intro sl hsl
    by_cases h2 : sl.2 = none
    · refine Or.inr (List.mem_map_of_mem Prod.fst ?_)
      exact List.mem_filter.mpr ⟨hsl, by simp [h2]⟩
    · exact Or.inl h2
  · have hlen := hperm.length_eq
    simp only [List.length_append, List.length_map] at hlen
    omega
  · exact slots_length_split _

/-- Witness for C6 at a concrete run with one matched primary. -/
theorem c6_partition_completeness_w :
    ([pW1].map PrimaryRecord.event_id).Nodup ∧
      ((∀ p ∈ [pW1],
          p.event_id ∈
              (match_data [pW1] [sW1]).secondary.filterMap Prod.snd ∨
            p ∈ (match_data [pW1] [sW1]).missing_events) ∧
        (∀ p ∈ [pW1], p ∈ (match_data [pW1] [sW1]).missing_events →
            p.event_id ∉
              (match_data [pW1] [sW1]).secondary.filterMap Prod.snd) ∧
        (∀ sl ∈ (match_data [pW1] [sW1]).secondary,
            sl.2 ≠ none ∨
              sl.1 ∈ (match_data [pW1] [sW1]).missing_rewards) ∧
        ((match_data [pW1] [sW1]).secondary.filterMap Prod.snd).length +
            (match_data [pW1] [sW1]).missing_events.length =
          [pW1].length ∧
        (match_data [pW1] [sW1]).secondary.length =
          ((match_data [pW1] [sW1]).secondary.filterMap Prod.snd).length +
            (match_data [pW1] [sW1]).missing_rewards.length) :=
  ⟨by decide, c6_partition_completeness [pW1] [sW1] (by decide)⟩

/-- C7: greedy order determinism.  With two primary rows both matching the
single secondary row on all four predicates, the earlier primary row gets
the assignment and the later one is reported unmatched; with one primary
row and two equally matching secondary rows, the earlier secondary row is
chosen (first-fit) and the later one stays unassigned. -/
theorem c7_order_determinism (p1 p2 q : PrimaryRecord)
    (s t1 t2 : SecondaryRecord)
    (h1 : matchPred p1 s = true) (_h2 : matchPred p2 s = true)
    (h3 : matchPred q t1 = true) (_h4 : matchPred q t2 = true) :
    ((match_data [p1, p2] [s]).secondary = [(s, some p1.event_id)] ∧
        (match_data [p1, p2] [s]).missing_events = [p2]) ∧
      ((match_data [q] [t1, t2]).secondary =
          [(t1, some q.event_id), (t2, none)] ∧
        (match_data [q] [t1, t2]).missing_rewards = [t2]) := by
  refine ⟨⟨?_, ?_⟩, ?_, ?_⟩ <;>
    simp [match_data, matchLoop, assignFirst, h1, h3]

/-- Witness for C7: concrete records realizing all four hypotheses. -/
theorem c7_order_determinism_w :
    (matchPred pW1 sW1 = true ∧ matchPred pW2 sW1 = true) ∧
      (((match_data [pW1, pW2] [sW1]).secondary =
            [(sW1, some pW1.event_id)] ∧
          (match_data [pW1, pW2] [sW1]).missing_events = [pW2]) ∧
        ((match_data [pW1] [sW1, sW1]).secondary =
            [(sW1, some pW1.event_id), (sW1, none)] ∧
          (match_data [pW1] [sW1, sW1]).missing_rewards = [sW1])) :=
  ⟨⟨by decide, by decide⟩,
    c7_order_determinism pW1 pW2 pW1 sW1 sW1 sW1 (by decide) (by decide)
      (by decide) (by decide)⟩

/-- C8: a primary row whose amount extraction failed (NaN, modelled as
`none`) satisfies the amount predicate against no secondary row, hence
matches nothing and is always reported in `missing_events`; the matcher is
a total function, so no error is raised. -/
theorem c8_unparsable_amount_unmatched
    (primary : List PrimaryRecord) (secondary : List SecondaryRecord)
    (p : PrimaryRecord) (hp : p ∈ primary) (ha : p.amount = none) :
    (∀ s : SecondaryRecord, matchPred p s = false) ∧
      p ∈ (match_data primary secondary).missing_events := by
  have hnever : ∀ s : SecondaryRecord, matchPred p s = false := by
    intro s
    simp [matchPred, amountPred, ha]
  refine ⟨hnever, ?_⟩
  simp only [match_data]
  exact matchLoop_missing_of_never primary _ p hp hnever

/-- Witness for C8: a run containing a NaN-amount primary row. -/
theorem c8_unparsable_amount_unmatched_w :
    (pW3 ∈ [pW1, pW3] ∧ pW3.amount = none) ∧
      ((∀ s : SecondaryRecord, matchPred pW3 s = false) ∧
        pW3 ∈ (match_data [pW1, pW3] [sW1]).missing_events) :=
  ⟨⟨by decide, by decide⟩,
    c8_unparsable_amount_unmatched [pW1, pW3] [sW1] pW3 (by decide)
      (by decide)⟩

/-- C9: matching is frame-preserving: the primary collection is returned
unchanged field-for-field, the secondary rows keep their own fields and
their count — only the attached `Event ID` cell is new — and the unmatched
outputs are sublists of the inputs (no record is created or destroyed). -/
theorem c9_no_mutation_beyond_assignment
    (primary : List PrimaryRecord) (secondary : List SecondaryRecord) :
    (match_data primary secondary).primary = primary ∧
      (match_data primary secondary).secondary.map Prod.fst = secondary ∧
      (match_data primary secondary).secondary.length = secondary.length ∧
      (match_data primary secondary).missing_events.Sublist primary := by
  have hmap : (match_data primary secondary).secondary.map Prod.fst =
      secondary := by
    simp only [match_data]
    rw [matchLoop_fst_map]
    simp [Function.comp_def]
  refine ⟨rfl, hmap, ?_, ?_⟩
  · calc (match_data primary secondary).secondary.length
        = ((match_data primary secondary).secondary.map Prod.fst).length :=
          (List.length_map _ _).symm
      _ = secondary.length := by rw [hmap]
  · simp only [match_data]
    exact matchLoop_missing_sublist primary _

/-- C10: `prepare_data` only ever writes `'YES'` or `'NO'` into the primary
CASHVIP column, and a primary row carrying `'NO'` fails the VIP check of
line 122 against every secondary row — its non-VIP branch compares against
the empty string — so such a row matches nothing and always ends up in
`missing_events`. -/
theorem c10_no_vip_primary_never_matches
    (primary : List PrimaryRecord) (secondary : List SecondaryRecord)
    (p : PrimaryRecord) (hp : p ∈ primary)
    (hc : p.cashvip = "NO".toList) :
    (∀ r : List Char, prepare_cashvip r = "YES".toList ∨
        prepare_cashvip r = "NO".toList) ∧
      (∀ s : SecondaryRecord, vipPred p s = false) ∧
      (∀ s : SecondaryRecord, matchPred p s = false) ∧
      p ∈ (match_data primary secondary).missing_events := by
  have hy : ("NO".toList == "YES".toList) = false := by decide
  have he : ("NO".toList == "".toList) = false := by decide
  have hv : ∀ s : SecondaryRecord, vipPred p s = false := by
    intro s
    simp [vipPred, hc, hy, he]
  have hnever : ∀ s : SecondaryRecord, matchPred p s = false := by
    intro s
    simp [matchPred, hv s]
  refine ⟨?_, hv, hnever, ?_⟩
  · intro r
    unfold prepare_cashvip
    by_cases hin : List.IsInfix ("CASHVIP".toList) r
    · exact Or.inl (by rw [if_pos hin])
    · exact Or.inr (by rw [if_neg hin])
  · simp only [match_data]
    exact matchLoop_missing_of_never primary _ p hp hnever

/-- Witness for C10: a run containing a `'NO'`-flagged primary row. -/
theorem c10_no_vip_primary_never_matches_w :
    (pW4 ∈ [pW4] ∧ pW4.cashvip = "NO".toList) ∧
      ((∀ r : List Char, prepare_cashvip r = "YES".toList ∨
          prepare_cashvip r = "NO".toList) ∧
        (∀ s : SecondaryRecord, vipPred pW4 s = false) ∧
        (∀ s : SecondaryRecord, matchPred pW4 s = false) ∧
        pW4 ∈ (match_data [pW4] [sW1]).missing_events) :=
  ⟨⟨by decide, by decide⟩,
    c10_no_vip_primary_never_matches [pW4] [sW1] pW4 (by decide) (by decide)⟩
